import Mathlib

/-!
Verification of the ai-ads-sdk backend core against its specification.

Shallow embedding conventions:
- Python floats are idealized as real numbers (`ℝ`); `datetime` values and
  second-based durations are idealized as rationals (`ℚ`), measured in seconds
  since an arbitrary epoch.
- Python dictionaries used as keyed stores are modelled as functions
  `String → Option _`; a Python `set` built by repeated insertion is modelled as
  a duplicate-free list in first-insertion order (CPython iteration order over a
  set of strings is unspecified; all order-sensitive uses are noted).
- Python `list.sort(key=..., reverse=True)` is a stable descending sort; any two
  stable sorts agree extensionally, so it is modelled by stable insertion sort.
- `numpy.dot` requires equal-dimension vectors (it raises otherwise); the
  embedding truncates via `zipWith` and theorems that depend on the numeric
  value carry an explicit equal-length hypothesis.
- Fallible top-level entry points are modelled with `Except`; the uncaught
  `TypeError` raised by `find_best_products` when `page_topics` is `None`
  (source line 98 iterates it unconditionally) is represented as an
  `Except.error`.
- URL normalization (`_normalize_url`, built on the Python stdlib `urlparse`,
  which is outside this repository) is abstracted as an arbitrary function
  parameter `norm : String → String`; no claim depends on its internals.
- Logging (`print` calls) and JSON persistence (`_save`/`_load`) are effects on
  collaborators outside the verified core and are not modelled.
-/

/-- Lowercase a string character-wise, modelling Python `str.lower()` on the
ASCII texts used by the matcher. -/
def lowerStr (s : String) : String := ⟨s.data.map Char.toLower⟩

/-- Contiguous-substring test on character lists, modelling the Python
`needle in haystack` operator on strings. -/
def charsContain (hay needle : List Char) : Bool :=
  (List.range (hay.length + 1)).any fun i =>
    decide ((hay.drop i).take needle.length = needle)

/-- String containment: `strContains hay needle` is Python `needle in hay`. -/
def strContains (hay needle : String) : Bool := charsContain hay.data needle.data

/-- Product record, from `models/product.py` (`class Product`); only the fields
read by the matcher are carried. `product_embedding` is `Optional` in the
source; `none` models the absent/None case. -/
structure Product where
  id : String
  name : String
  description : String
  active : Bool
  product_embedding : Option (List ℝ)

/-- Combined lowercased name+description, the `product_text` built at
`matcher.py` lines 119 and 196. -/
def productText (p : Product) : String :=
  lowerStr (p.name ++ " " ++ p.description)

/-- The product embedding is missing when the attribute is None or the empty
list, modelling `not product.product_embedding` at `matcher.py` line 114. -/
def embAbsent (p : Product) : Bool :=
  match p.product_embedding with
  | none => true
  | some l => l.isEmpty

/-- Topic-based exclusion table, `exclude_keywords_by_topic` at
`matcher.py` lines 77-85. -/
def excludeKeywordsByTopic (t : String) : Option (List String) :=
  if t = "lifestyle" then
    some ["camping", "outdoor", "hiking", "trail", "backpacking", "wilderness",
          "tent", "lantern", "survival", "cot", "headphone", "earphone",
          "bluetooth", "wireless", "technology", "electronic", "projector",
          "ipad", "tablet", "printer"]
  else if t = "health" then
    some ["camping", "outdoor", "hiking", "adventure", "headphone", "earphone",
          "technology", "electronic"]
  else if t = "outdoor" then
    some ["headphone", "earphone", "ipad", "tablet", "printer", "projector",
          "technology", "electronic", "bedding", "comforter", "pillow",
          "mirror", "vase", "silverware", "decor", "furniture"]
  else if t = "technology" then
    some ["camping", "outdoor", "hiking", "tent", "lantern", "cot",
          "backpacking", "bedding", "comforter", "pillow", "mirror", "vase",
          "silverware", "decor", "furniture"]
  else none

/-- A product is vetoed when, for some page topic present in the exclusion
table, some disallowed keyword occurs in its combined text
(`matcher.py` lines 117-134). -/
def isExcluded (p : Product) (topics : List String) : Bool :=
  topics.any fun t =>
    match excludeKeywordsByTopic t with
    | some kws => kws.any fun k => strContains (productText p) k
    | none => false

/-- Topic-to-category map, `topic_category_map` at `matcher.py` lines 88-94
(duplicated at lines 239-245). -/
def topicCategoryMap (t : String) : Option String :=
  if t = "lifestyle" then some "lifestyle"
  else if t = "health" then some "lifestyle"
  else if t = "outdoor" then some "outdoor"
  else if t = "technology" then some "technology"
  else if t = "tech" then some "technology"
  else none

/-- Categories mapped from the page topics, in first-insertion order: models
the Python set `page_categories` (`matcher.py` lines 97-101 and 248-255). -/
def pageCategoriesOf (topics : List String) : List String :=
  topics.foldl (fun acc t =>
    match topicCategoryMap t with
    | some c => if acc.contains c then acc else acc ++ [c]
    | none => acc) []

/-- Preferred category used by the scoring boost/penalty, `matcher.py`
lines 104-105: the unique mapped category when exactly one exists, otherwise
the first topic-s mapped category (None when the topic list is empty). -/
def preferredCategory (topics : List String) : Option String :=
  if (pageCategoriesOf topics).length = 1 then (pageCategoriesOf topics).head?
  else
    match topics with
    | [] => none
    | t :: _ => topicCategoryMap t

/-- Tech keyword list of `_categorize_product`, `matcher.py` line 200. -/
def techKeywords : List String :=
  ["headphone", "earphone", "sleep headphone", "bluetooth headphone", "ipad",
   "tablet", "computer", "laptop", "printer", "projector", "tech",
   "electronic", "bluetooth", "wireless", "gadget", "camera"]

/-- Outdoor keyword list of `_categorize_product`, `matcher.py` line 202. -/
def outdoorKeywords : List String :=
  ["camping", "outdoor", "hiking", "trail", "backpacking", "wilderness",
   "tent", "lantern", "survival", "cot", "camping cot", "camping tent",
   "camping light"]

/-- Lifestyle keyword list of `_categorize_product`, `matcher.py` line 204. -/
def lifestyleKeywords : List String :=
  ["bedding", "comforter", "pillow", "mirror", "vase", "ceramic vase",
   "silverware", "decor", "furniture", "home", "fashion", "beauty", "jewelry",
   "necklace", "farmhouse", "irregular mirror"]

/-- Category assignment `_categorize_product`, `matcher.py` lines 189-214:
first keyword-list match in the order technology, outdoor, lifestyle. -/
def categorizeProduct (p : Product) : String :=
  if techKeywords.any (fun k => strContains (productText p) k) then "technology"
  else if outdoorKeywords.any (fun k => strContains (productText p) k) then "outdoor"
  else if lifestyleKeywords.any (fun k => strContains (productText p) k) then "lifestyle"
  else "other"

/-- Sum of squares of a vector, the quantity under the square root in
`np.linalg.norm`. -/
def sumSq (a : List ℝ) : ℝ := (a.map fun x => x * x).sum

/-- Dot product, `np.dot` (`matcher.py` line 40); requires equal dimensions in
the source, modelled by truncation plus equal-length hypotheses in theorems. -/
def dotList (a b : List ℝ) : ℝ := (List.zipWith (· * ·) a b).sum

/-- Euclidean norm, `np.linalg.norm` (`matcher.py` lines 34-35). -/
noncomputable def norm2 (a : List ℝ) : ℝ := Real.sqrt (sumSq a)

/-- Cosine similarity, `ProductMatcher.cosine_similarity`
(`matcher.py` lines 16-43): 0 on an empty input, 0 on a zero-norm input,
otherwise the normalized dot product clamped into [0, 1]. -/
noncomputable def cosine_similarity (a b : List ℝ) : ℝ :=
  if a = [] ∨ b = [] then 0
  else if norm2 a = 0 ∨ norm2 b = 0 then 0
  else max 0 (min 1 (dotList a b / (norm2 a * norm2 b)))

/-- One scored match, the dictionary appended at `matcher.py` lines 155-160. -/
structure ScoreEntry where
  product : Product
  score : ℝ
  original_score : ℝ
  category : String

/-- Boost/penalty applied to a raw similarity, `matcher.py` lines 143-153:
with a preferred category, matching products get a 15 percent boost capped at
1.0, products in the other named categories get a 30 percent penalty, and
everything else (in particular category `other`) is unchanged. -/
noncomputable def adjustScore (sim : ℝ) (cat : String) (pref : Option String) : ℝ :=
  match pref with
  | none => sim
  | some c =>
    if cat = c then min 1 (sim * 1.15)
    else if (["technology", "lifestyle", "outdoor"].contains cat) && !(cat = c : Bool) then sim * 0.7
    else sim

/-- Per-product step of the scoring loop, `matcher.py` lines 108-160: skip
inactive products, products without embeddings, and (for a non-empty topic
list) vetoed products; otherwise score, threshold on the raw similarity, and
record the boosted score with the product category. -/
noncomputable def scoreOne (pe : List ℝ) (topics : List String) (min_score : ℝ)
    (p : Product) : Option ScoreEntry :=
  if p.active = false then none
  else if embAbsent p then none
  else if !topics.isEmpty && isExcluded p topics then none
  else if min_score ≤ cosine_similarity pe (p.product_embedding.getD []) then
    some { product := p
           score := adjustScore (cosine_similarity pe (p.product_embedding.getD []))
             (categorizeProduct p) (preferredCategory topics)
           original_score := cosine_similarity pe (p.product_embedding.getD [])
           category := categorizeProduct p }
  else none

/-- The list `scores`, built by the loop at `matcher.py` lines 108-160. -/
noncomputable def scoreProducts (pe : List ℝ) (products : List Product)
    (min_score : ℝ) (topics : List String) : List ScoreEntry :=
  products.filterMap (scoreOne pe topics min_score)

/-- Stable descending insertion of an entry by score. -/
noncomputable def insertDesc (x : ScoreEntry) : List ScoreEntry → List ScoreEntry
  | [] => [x]
  | y :: ys => if y.score ≤ x.score then x :: y :: ys else y :: insertDesc x ys

/-- Stable descending sort by boosted score, modelling
`scores.sort(key=lambda x: x["score"], reverse=True)` at `matcher.py`
line 172 (any stable descending sort is extensionally unique). -/
noncomputable def sortDesc (l : List ScoreEntry) : List ScoreEntry :=
  l.foldr insertDesc []

/-- Number of topics mapping to category `c`, the value `category_counts[c]`
at `matcher.py` lines 249-255. -/
def categoryCounts (topics : List String) (c : String) : Nat :=
  topics.countP fun t => topicCategoryMap t == some c

/-- Number of topics with any mapped category, `total_mapped_topics` at
`matcher.py` line 259. -/
def totalMappedTopics (topics : List String) : Nat :=
  topics.countP fun t => (topicCategoryMap t).isSome

/-- The dominant (maximal-count, earliest-inserted on ties) category, Python
`max(category_counts.items(), key=lambda x: x[1])` at `matcher.py` line 261;
dict insertion order coincides with first-insertion order of the categories. -/
def dominantCategoryOf (topics : List String) : Option (String × Nat) :=
  (pageCategoriesOf topics).foldl (fun best c =>
    match best with
    | none => some (c, categoryCounts topics c)
    | some (b, bc) =>
      if bc < categoryCounts topics c then some (c, categoryCounts topics c)
      else some (b, bc)) none

/-- The single-category decision of `_diversify_by_topics`
(`matcher.py` lines 257-275): `some pref` when the page is treated as
single-category with preferred category `pref` (dominant category at ratio
at least 0.66, or a unique mapped category), `none` when multi-category. -/
def divPreferred (topics : List String) : Option String :=
  if 0 < totalMappedTopics topics then
    match dominantCategoryOf topics with
    | some (d, dc) =>
      if (33 : ℚ) / 50 ≤ (dc : ℚ) / (totalMappedTopics topics : ℚ) then some d
      else if (pageCategoriesOf topics).length = 1 then (pageCategoriesOf topics).head?
      else none
    | none => none
  else if (pageCategoriesOf topics).length = 1 then (pageCategoriesOf topics).head?
  else none

/-- Products of category `c` among the surviving scores, in score order:
the bucket `categorized[c]` of `matcher.py` lines 304-313 (note the source
re-categorizes from the product, not from the entry field). -/
noncomputable def categorizedFor (scores : List ScoreEntry) (c : String) : List ScoreEntry :=
  scores.filter fun e => categorizeProduct e.product == c

/-- Product ids already chosen, the set `used_product_ids` of
`matcher.py` line 325 (ids are added exactly when an entry is appended). -/
def usedIds (res : List ScoreEntry) : List String := res.map fun e => e.product.id

/-- One pass over the priority categories taking one unused product each,
`matcher.py` lines 333-349. -/
noncomputable def priorityStep (scores : List ScoreEntry) (priorityCats : List String)
    (k : Nat) (res : List ScoreEntry) : List ScoreEntry :=
  priorityCats.foldl (fun r c =>
    if k ≤ r.length then r
    else
      match (categorizedFor scores c).find? (fun e => !(usedIds r).contains e.product.id) with
      | some e => r ++ [e]
      | none => r) res

/-- Append every not-yet-used entry of `l` until `k` entries are reached,
the inner loops of `matcher.py` lines 363-370 and 374-380. -/
noncomputable def takeAllUnused (k : Nat) (res : List ScoreEntry)
    (l : List ScoreEntry) : List ScoreEntry :=
  l.foldl (fun r e =>
    if k ≤ r.length then r
    else if (usedIds r).contains e.product.id then r
    else r ++ [e]) res

/-- The non-matching-categories fill, `matcher.py` lines 354-370. -/
noncomputable def otherFillStep (scores : List ScoreEntry) (otherCats : List String)
    (k : Nat) (res : List ScoreEntry) : List ScoreEntry :=
  if res.length < k then
    otherCats.foldl (fun r c =>
      if k ≤ r.length then r else takeAllUnused k r (categorizedFor scores c)) res
  else res

/-- The global best-score fill, `matcher.py` lines 372-380. -/
noncomputable def globalFillStep (scores : List ScoreEntry) (k : Nat)
    (res : List ScoreEntry) : List ScoreEntry :=
  if res.length < k then takeAllUnused k res scores else res

/-- One iteration of the `while` loop at `matcher.py` lines 332-380. -/
noncomputable def roundBody (scores : List ScoreEntry) (priorityCats otherCats : List String)
    (k : Nat) (res : List ScoreEntry) : List ScoreEntry :=
  globalFillStep scores k (otherFillStep scores otherCats k (priorityStep scores priorityCats k res))

/-- The `while len(result) < top_k and round_num < max_rounds` loop
(`matcher.py` lines 329-380), with `fuel = max_rounds = top_k`. -/
noncomputable def diversifyLoop (scores : List ScoreEntry) (priorityCats otherCats : List String)
    (k : Nat) : Nat → List ScoreEntry → List ScoreEntry
  | 0, res => res
  | fuel + 1, res =>
    if res.length < k then
      diversifyLoop scores priorityCats otherCats k fuel (roundBody scores priorityCats otherCats k res)
    else res

/-- Diversification `_diversify_by_topics`, `matcher.py` lines 216-388:
top-k on an empty topic list; single-category pages take preferred-category
products first and backfill; multi-category pages run the round-robin loop. -/
noncomputable def _diversify_by_topics (scores : List ScoreEntry)
    (page_topics : List String) (top_k : Nat) : List ScoreEntry :=
  if page_topics.isEmpty then scores.take top_k
  else
    match divPreferred page_topics with
    | some pref =>
      let preferredProducts := scores.filter fun e => e.category == pref
      let otherProducts := scores.filter fun e => !(e.category == pref)
      let r1 := preferredProducts.take top_k
      let r2 :=
        if r1.length < top_k && !otherProducts.isEmpty then
          r1 ++ otherProducts.take (top_k - r1.length)
        else r1
      r2.take top_k
    | none =>
      let pageCats := pageCategoriesOf page_topics
      let priorityCats := pageCats.filter fun c => !(categorizedFor scores c).isEmpty
      let otherCats := (["outdoor", "technology", "lifestyle", "other"].filter
        fun c => !(pageCats.contains c) && !(categorizedFor scores c).isEmpty)
      (diversifyLoop scores priorityCats otherCats top_k top_k []).take top_k

/-- Body of `find_best_products` once the page embedding is known non-empty
and `page_topics` is an actual list, `matcher.py` lines 73-187. -/
noncomputable def find_best_products_core (pe : List ℝ) (products : List Product)
    (top_k : Nat) (min_score : ℝ) (page_topics : List String) : List ScoreEntry :=
  _diversify_by_topics (sortDesc (scoreProducts pe products min_score page_topics))
    page_topics top_k

/-- Caller-facing `ProductMatcher.find_best_products`
(`matcher.py` lines 45-187). Returns `ok []` when the page embedding is
absent/empty (line 69); raises `TypeError` when `page_topics` is `None`,
because line 98 iterates `page_topics` with no `None` guard. -/
noncomputable def find_best_products (pe : List ℝ) (products : List Product)
    (top_k : Nat) (min_score : ℝ) (page_topics : Option (List String)) :
    Except String (List ScoreEntry) :=
  if pe.isEmpty then .ok []
  else
    match page_topics with
    | none => .error "TypeError: NoneType is not iterable"
    | some topics => .ok (find_best_products_core pe products top_k min_score topics)

/-- Dot products are symmetric. -/
theorem dotList_comm (a b : List ℝ) : dotList a b = dotList b a := by
  unfold dotList
  rw [List.zipWith_comm_of_comm (· * ·) mul_comm]

/-- Every entry produced by one scoring step carries the product it was built
from. -/
theorem scoreOne_product {pe : List ℝ} {topics : List String} {m : ℝ}
    {p : Product} {e : ScoreEntry} (h : scoreOne pe topics m p = some e) :
    e.product = p := by
  unfold scoreOne at h
  split at h
  · exact absurd h (by simp)
  split at h
  · exact absurd h (by simp)
  split at h
  · exact absurd h (by simp)
  split at h
  · cases h; rfl
  · exact absurd h (by simp)

/-- Scored entries come from active products. -/
theorem scoreOne_active {pe : List ℝ} {topics : List String} {m : ℝ}
    {p : Product} {e : ScoreEntry} (h : scoreOne pe topics m p = some e) :
    e.product.active = true := by
  have hp := scoreOne_product h
  unfold scoreOne at h
  split at h
  next hact => exact absurd h (by simp)
  next hact =>
    subst hp
    simpa using hact

/-- Scored entries come from products with a present, non-empty embedding. -/
theorem scoreOne_emb {pe : List ℝ} {topics : List String} {m : ℝ}
    {p : Product} {e : ScoreEntry} (h : scoreOne pe topics m p = some e) :
    embAbsent e.product = false := by
  have hp := scoreOne_product h
  unfold scoreOne at h
  split at h
  · exact absurd h (by simp)
  split at h
  next hemb => exact absurd h (by simp)
  next hemb =>
    subst hp
    simpa using hemb

/-- With a non-empty topic list, scored entries passed the topic veto. -/
theorem scoreOne_notExcluded {pe : List ℝ} {topics : List String} {m : ℝ}
    {p : Product} {e : ScoreEntry} (ht : topics ≠ [])
    (h : scoreOne pe topics m p = some e) :
    isExcluded e.product topics = false := by
  have hp := scoreOne_product h
  unfold scoreOne at h
  split at h
  · exact absurd h (by simp)
  split at h
  · exact absurd h (by simp)
  split at h
  next hexc => exact absurd h (by simp)
  next hexc =>
    subst hp
    have hne : topics.isEmpty = false := by
      cases topics with
      | nil => exact absurd rfl ht
      | cons t ts => rfl
    simp only [hne, Bool.not_false, Bool.true_and] at hexc
    exact Bool.not_eq_true _ ▸ Bool.of_not_eq_true hexc

/-- Scored entries carry the category assigned to their product, the raw
similarity as original score, the adjusted score, and pass the threshold. -/
theorem scoreOne_fields {pe : List ℝ} {topics : List String} {m : ℝ}
    {p : Product} {e : ScoreEntry} (h : scoreOne pe topics m p = some e) :
    e.category = categorizeProduct e.product ∧
    e.score = adjustScore e.original_score e.category (preferredCategory topics) ∧
    m ≤ e.original_score := by
  have hp := scoreOne_product h
  unfold scoreOne at h
  split at h
  · exact absurd h (by simp)
  split at h
  · exact absurd h (by simp)
  split at h
  · exact absurd h (by simp)
  split at h
  next hth =>
    cases h
    refine ⟨rfl, rfl, hth⟩
  · exact absurd h (by simp)

/-- Membership in the scored list comes from membership in the catalog. -/
theorem mem_scoreProducts {pe : List ℝ} {ps : List Product} {m : ℝ}
    {topics : List String} {e : ScoreEntry}
    (h : e ∈ scoreProducts pe ps m topics) :
    ∃ p ∈ ps, scoreOne pe topics m p = some e := by
  unfold scoreProducts at h
  exact List.mem_filterMap.mp h

/-- Stable descending insertion permutes. -/
theorem insertDesc_perm (x : ScoreEntry) (l : List ScoreEntry) :
    (insertDesc x l).Perm (x :: l) := by
  induction l with
  | nil => simp [insertDesc]
  | cons y ys ih =>
    unfold insertDesc
    split
    · exact List.Perm.refl _
    · exact ((ih.cons y).trans (List.Perm.swap x y ys))

/-- The stable descending sort is a permutation of its input. -/
theorem sortDesc_perm (l : List ScoreEntry) : (sortDesc l).Perm l := by
  induction l with
  | nil => simp [sortDesc]
  | cons x xs ih =>
    unfold sortDesc
    simp only [List.foldr_cons]
    exact (insertDesc_perm x _).trans (ih.cons x)

/-- Entries of the category buckets come from the score list. -/
theorem mem_categorizedFor {scores : List ScoreEntry} {c : String} {x : ScoreEntry}
    (h : x ∈ categorizedFor scores c) : x ∈ scores :=
  (List.mem_filter.mp h).1

/-- A generic preservation lemma for the selection folds: if each step only
adds entries from `scores`, so does the whole fold. -/
theorem mem_foldl_of_step {β : Type} {scores : List ScoreEntry}
    (g : List ScoreEntry → β → List ScoreEntry)
    (hg : ∀ r b x, x ∈ g r b → x ∈ r ∨ x ∈ scores) :
    ∀ (l : List β) (res : List ScoreEntry) (x : ScoreEntry),
      x ∈ List.foldl g res l → x ∈ res ∨ x ∈ scores := by
  intro l
  induction l with
  | nil => intro res x hx; exact Or.inl hx
  | cons b bs ih =>
    intro res x hx
    rw [List.foldl_cons] at hx
    rcases ih (g res b) x hx with hr | hs
    · exact hg res b x hr
    · exact Or.inr hs

/-- Entries selected by `takeAllUnused` come from its inputs. -/
theorem mem_takeAllUnused {k : Nat} {res l : List ScoreEntry} {x : ScoreEntry}
    (h : x ∈ takeAllUnused k res l) : x ∈ res ∨ x ∈ l := by
  unfold takeAllUnused at h
  induction l generalizing res with
  | nil => exact Or.inl h
  | cons e es ih =>
    rw [List.foldl_cons] at h
    rcases ih h with hr | hs
    · split at hr
      · exact Or.inl hr
      split at hr
      · exact Or.inl hr
      · rcases List.mem_append.mp hr with h1 | h1
        · exact Or.inl h1
        · exact Or.inr (List.mem_cons.mpr (Or.inl (List.mem_singleton.mp h1)))
    · exact Or.inr (List.mem_cons.mpr (Or.inr hs))

/-- Entries selected by the priority pass come from the score list. -/
theorem mem_priorityStep {scores : List ScoreEntry} {cats : List String}
    {k : Nat} {res : List ScoreEntry} {x : ScoreEntry}
    (h : x ∈ priorityStep scores cats k res) : x ∈ res ∨ x ∈ scores := by
  unfold priorityStep at h
  refine mem_foldl_of_step _ ?_ cats res x h
  intro r c y hy
  split at hy
  · exact Or.inl hy
  · split at hy
    next e he =>
      rcases List.mem_append.mp hy with h1 | h1
      · exact Or.inl h1
      · have hye : y = e := List.mem_singleton.mp h1
        exact Or.inr (hye ▸ mem_categorizedFor (List.mem_of_find?_eq_some he))
    next => exact Or.inl hy

/-- Entries selected by the other-categories fill come from its inputs. -/
theorem mem_otherFillStep {scores : List ScoreEntry} {cats : List String}
    {k : Nat} {res : List ScoreEntry} {x : ScoreEntry}
    (h : x ∈ otherFillStep scores cats k res) : x ∈ res ∨ x ∈ scores := by
  unfold otherFillStep at h
  split at h
  · refine mem_foldl_of_step _ ?_ cats res x h
    intro r c y hy
    split at hy
    · exact Or.inl hy
    · rcases mem_takeAllUnused hy with h1 | h1
      · exact Or.inl h1
      · exact Or.inr (mem_categorizedFor h1)
  · exact Or.inl h

/-- Entries selected by the global fill come from its inputs. -/
theorem mem_globalFillStep {scores : List ScoreEntry} {k : Nat}
    {res : List ScoreEntry} {x : ScoreEntry}
    (h : x ∈ globalFillStep scores k res) : x ∈ res ∨ x ∈ scores := by
  unfold globalFillStep at h
  split at h
  · exact mem_takeAllUnused h
  · exact Or.inl h

/-- Entries selected by one loop round come from its inputs. -/
theorem mem_roundBody {scores : List ScoreEntry} {pc oc : List String}
    {k : Nat} {res : List ScoreEntry} {x : ScoreEntry}
    (h : x ∈ roundBody scores pc oc k res) : x ∈ res ∨ x ∈ scores := by
  unfold roundBody at h
  rcases mem_globalFillStep h with h1 | h1
  · rcases mem_otherFillStep h1 with h2 | h2
    · exact mem_priorityStep h2
    · exact Or.inr h2
  · exact Or.inr h1

/-- Entries selected by the whole loop come from its inputs. -/
theorem mem_diversifyLoop {scores : List ScoreEntry} {pc oc : List String}
    {k fuel : Nat} {res : List ScoreEntry} {x : ScoreEntry}
    (h : x ∈ diversifyLoop scores pc oc k fuel res) : x ∈ res ∨ x ∈ scores := by
  induction fuel generalizing res with
  | zero => exact Or.inl h
  | succ n ih =>
    unfold diversifyLoop at h
    split at h
    · rcases ih h with h1 | h1
      · exact mem_roundBody h1
      · exact Or.inr h1
    · exact Or.inl h

/-- Every entry returned by diversification is one of the surviving scored
entries. -/
theorem mem_diversify {scores : List ScoreEntry} {topics : List String}
    {k : Nat} {x : ScoreEntry}
    (h : x ∈ _diversify_by_topics scores topics k) : x ∈ scores := by
  unfold _diversify_by_topics at h
  split at h
  · exact List.mem_of_mem_take h
  split at h
  · have h2 := List.mem_of_mem_take h
    split at h2
    · rcases List.mem_append.mp h2 with h3 | h3
      · exact (List.mem_filter.mp (List.mem_of_mem_take h3)).1
      · exact (List.mem_filter.mp (List.mem_of_mem_take h3)).1
    · exact (List.mem_filter.mp (List.mem_of_mem_take h2)).1
  · have h2 := List.mem_of_mem_take h
    rcases mem_diversifyLoop h2 with h3 | h3
    · exact absurd h3 (List.not_mem_nil x)
    · exact h3

/-- Every entry in the final result of the matcher core is a scored surviving
entry. -/
theorem mem_core {pe : List ℝ} {ps : List Product} {k : Nat} {m : ℝ}
    {topics : List String} {e : ScoreEntry}
    (h : e ∈ find_best_products_core pe ps k m topics) :
    e ∈ scoreProducts pe ps m topics := by
  unfold find_best_products_core at h
  exact (sortDesc_perm _).subset (mem_diversify h)

/-- C10: for every pair of equal-dimension vectors (the dimension requirement
comes from `np.dot`, which rejects mismatched shapes), cosine similarity is
symmetric, lies in [0, 1] after clamping, and returns 0 whenever either input
is absent (empty) or has zero norm. -/
theorem C10_cosine_similarity_props (a b : List ℝ) (_hdim : a.length = b.length) :
    cosine_similarity a b = cosine_similarity b a ∧
    0 ≤ cosine_similarity a b ∧ cosine_similarity a b ≤ 1 ∧
    ((a = [] ∨ b = [] ∨ norm2 a = 0 ∨ norm2 b = 0) → cosine_similarity a b = 0) := by
  refine ⟨?_, ?_, ?_, ?_⟩
  · unfold cosine_similarity
    by_cases h1 : a = [] ∨ b = []
    · rw [if_pos h1, if_pos (or_comm.mp h1)]
    · rw [if_neg h1, if_neg (fun hc => h1 (or_comm.mp hc))]
      by_cases h2 : norm2 a = 0 ∨ norm2 b = 0
      · rw [if_pos h2, if_pos (or_comm.mp h2)]
      · rw [if_neg h2, if_neg (fun hc => h2 (or_comm.mp hc))]
        rw [dotList_comm, mul_comm (norm2 a) (norm2 b)]
  · unfold cosine_similarity
    split
    · exact le_refl 0
    split
    · exact le_refl 0
    · exact le_max_left 0 _
  · unfold cosine_similarity
    split
    · exact zero_le_one
    split
    · exact zero_le_one
    · exact max_le zero_le_one (min_le_left 1 _)
  · intro h0
    unfold cosine_similarity
    split
    · rfl
    split
    · rfl
    next h1 h2 =>
      rcases h0 with h3 | h3 | h3 | h3
      · exact absurd (Or.inl h3) h1
      · exact absurd (Or.inr h3) h1
      · exact absurd (Or.inl h3) h2
      · exact absurd (Or.inr h3) h2

/-- Witness for C10 at concrete inputs: a zero vector against a unit vector
yields 0. -/
theorem C10_cosine_similarity_props_witness :
    cosine_similarity [(0 : ℝ)] [(1 : ℝ)] = 0 :=
  (C10_cosine_similarity_props [(0 : ℝ)] [(1 : ℝ)] rfl).2.2.2
    (Or.inr (Or.inr (Or.inl (by simp [norm2, sumSq]))))

/-- C1: for every call with a non-empty page-topic list, every entry of the
returned list survived the topic veto — no returned product contains, in its
lowercased combined name+description, a disallowed keyword of the fixed
exclusion table for any of the page topics. -/
theorem C1_exclusion_is_hard_veto (pe : List ℝ) (products : List Product)
    (top_k : Nat) (min_score : ℝ) (page_topics : List String)
    (h : page_topics ≠ []) :
    List.Forall (fun e => isExcluded e.product page_topics = false)
      (find_best_products_core pe products top_k min_score page_topics) := by
  rw [List.forall_iff_forall_mem]
  intro e he
  obtain ⟨p, _, hsome⟩ := mem_scoreProducts (mem_core he)
  exact scoreOne_notExcluded h hsome

/-- Witness for C1: the spec example — a wireless-headphones product on a
page with topics ["outdoor"] ("headphone" is in the outdoor exclusion list). -/
theorem C1_exclusion_is_hard_veto_witness :
    List.Forall (fun e => isExcluded e.product ["outdoor"] = false)
      (find_best_products_core [(1 : ℝ)]
        [{ id := "prod_001", name := "Wireless Headphones",
           description := "Premium noise-canceling wireless headphones",
           active := true, product_embedding := some [(1 : ℝ)] }]
        5 0 ["outdoor"]) :=
  C1_exclusion_is_hard_veto [(1 : ℝ)]
    [{ id := "prod_001", name := "Wireless Headphones",
       description := "Premium noise-canceling wireless headphones",
       active := true, product_embedding := some [(1 : ℝ)] }]
    5 0 ["outdoor"] (by simp)

/-- C5 (code bug): called with a non-empty page embedding and the default
`page_topics=None`, `find_best_products` raises `TypeError` — line 98 of
`matcher.py` iterates `page_topics` with no `None` guard — contradicting the
spec requirement that the matcher is total and never raises. The embedding
makes the raise explicit as an `Except.error`. -/
theorem C5_raises_on_none_topics :
    find_best_products [(1 : ℝ)] [] 5 0 none =
      Except.error "TypeError: NoneType is not iterable" := rfl

/-- Enriched page context, `models/page.py` (`class EnrichedPageContext`);
timestamps are seconds (`ℚ`), the embedding is optional. Fields not read by
the verified operations are elided. -/
structure EnrichedPageContext where
  url : String
  title : Option String
  main_content : Option String
  topics : List String
  text_embedding : Option (List ℝ)
  crawled_at : ℚ

/-- Cache entry, `models/page.py` (`class PageContextCache`). -/
structure PageContextCache where
  url : String
  enriched_context : Option EnrichedPageContext
  is_crawling : Bool
  last_crawl_triggered : Option ℚ
  cached_at : ℚ

/-- The in-memory store `PageContextStorage._cache`, a dict keyed by
normalized URL. -/
def PCStore : Type := String → Option PageContextCache

/-- Cache TTL, `config.py` `PAGE_CONTEXT_CACHE_TTL = 86400` seconds. -/
def PAGE_CONTEXT_CACHE_TTL : ℚ := 86400

/-- Staleness window of `is_being_crawled`, `page_context.py` line 120:
300 seconds. -/
def CRAWL_STALENESS_WINDOW : ℚ := 300

/-- Lookup `PageContextStorage.get`, `page_context.py` lines 58-70: normalize,
then return the entry unless its age strictly exceeds the TTL. -/
def pcGet (norm : String → String) (st : PCStore) (now : ℚ) (url : String) :
    Option PageContextCache :=
  match st (norm url) with
  | none => none
  | some c => if PAGE_CONTEXT_CACHE_TTL < now - c.cached_at then none else some c

/-- Upsert `PageContextStorage.store_enriched_context`, `page_context.py`
lines 97-109: a fresh entry holding the context, crawl-state idle, cache
timestamp reset to now (and `last_crawl_triggered` at its default `None`). -/
def store_enriched_context (norm : String → String) (st : PCStore) (now : ℚ)
    (ctx : EnrichedPageContext) : PCStore :=
  fun u =>
    if u = norm ctx.url then
      some { url := norm ctx.url, enriched_context := some ctx,
             is_crawling := false, last_crawl_triggered := none, cached_at := now }
    else st u

/-- Transition `PageContextStorage.set_crawling_status`, `page_context.py`
lines 79-95: create the entry if missing (with the model defaults, in
particular `cached_at = now`), otherwise update the crawl-state in place,
recording the trigger time when turning it on. -/
def set_crawling_status (norm : String → String) (st : PCStore) (now : ℚ)
    (url : String) (b : Bool) : PCStore :=
  fun u =>
    if u = norm url then
      match st (norm url) with
      | none =>
        some { url := norm url, enriched_context := none, is_crawling := b,
               last_crawl_triggered := if b then some now else none,
               cached_at := now }
      | some c =>
        some { url := c.url, enriched_context := c.enriched_context,
               is_crawling := b,
               last_crawl_triggered := if b then some now else c.last_crawl_triggered,
               cached_at := c.cached_at }
    else st u

/-- Query `PageContextStorage.is_being_crawled`, `page_context.py`
lines 111-123: goes through `get` (hence through the TTL check), then
requires the crawling flag and a trigger time strictly within the 5-minute
window. -/
def is_being_crawled (norm : String → String) (st : PCStore) (now : ℚ)
    (url : String) : Bool :=
  match pcGet norm st now url with
  | none => false
  | some c =>
    c.is_crawling &&
      (match c.last_crawl_triggered with
       | some t => decide (now - t < CRAWL_STALENESS_WINDOW)
       | none => false)

/-- C6: storing an enriched context for URL U then calling get(U) at any later
time within the TTL returns an entry whose content is exactly the stored
context with crawl-state idle; once the age strictly exceeds the TTL, get(U)
behaves as absent. -/
theorem C6_store_get_roundtrip (norm : String → String) (st : PCStore)
    (ctx : EnrichedPageContext) (now now2 : ℚ) (u : String) (hu : ctx.url = u) :
    (now2 - now ≤ PAGE_CONTEXT_CACHE_TTL →
      pcGet norm (store_enriched_context norm st now ctx) now2 u =
        some { url := norm u, enriched_context := some ctx, is_crawling := false,
               last_crawl_triggered := none, cached_at := now }) ∧
    (PAGE_CONTEXT_CACHE_TTL < now2 - now →
      pcGet norm (store_enriched_context norm st now ctx) now2 u = none) := by
  subst hu
  constructor
  · intro hle
    have h1 : ¬PAGE_CONTEXT_CACHE_TTL < now2 - now := not_lt.mpr hle
    simp [pcGet, store_enriched_context, h1]
  · intro hgt
    simp [pcGet, store_enriched_context, hgt]

/-- Witness for C6 at a concrete instance: identity normalization, empty
store, a store at time 0 queried at time 1. -/
theorem C6_store_get_roundtrip_witness :
    ((1 : ℚ) - 0 ≤ PAGE_CONTEXT_CACHE_TTL →
      pcGet (fun s => s) (store_enriched_context (fun s => s) (fun _ => none) 0
          { url := "https://example.com/a", title := none, main_content := none,
            topics := [], text_embedding := none, crawled_at := 0 }) 1
          "https://example.com/a" =
        some { url := "https://example.com/a",
               enriched_context := some
                 { url := "https://example.com/a", title := none,
                   main_content := none, topics := [], text_embedding := none,
                   crawled_at := 0 },
               is_crawling := false, last_crawl_triggered := none,
               cached_at := 0 }) ∧
    (PAGE_CONTEXT_CACHE_TTL < (1 : ℚ) - 0 →
      pcGet (fun s => s) (store_enriched_context (fun s => s) (fun _ => none) 0
          { url := "https://example.com/a", title := none, main_content := none,
            topics := [], text_embedding := none, crawled_at := 0 }) 1
          "https://example.com/a" = none) :=
  C6_store_get_roundtrip (fun s => s) (fun _ => none)
    { url := "https://example.com/a", title := none, main_content := none,
      topics := [], text_embedding := none, crawled_at := 0 } 0 1
    "https://example.com/a" rfl

/-- Counterexample to C7: an entry whose cache timestamp is older than the
24-hour TTL but whose crawl was triggered only 60 seconds ago (well inside the
5-minute window) with the crawling flag set. The claim predicts
`isBeingCrawled = true`; the code returns `false`, because `is_being_crawled`
reads the entry through `get`, which applies the TTL check on `cached_at`. -/
theorem C7_counterexample :
    is_being_crawled (fun s => s)
      (fun s => if s = "https://example.com/a" then
        some { url := "https://example.com/a", enriched_context := none,
               is_crawling := true, last_crawl_triggered := some 86400,
               cached_at := 0 }
        else none)
      86460 "https://example.com/a" = false ∧
    (true && decide ((86460 : ℚ) - 86400 < CRAWL_STALENESS_WINDOW)) = true := by
  constructor
  · simp [is_being_crawled, pcGet, PAGE_CONTEXT_CACHE_TTL]
    norm_num
  · simp [CRAWL_STALENESS_WINDOW]
    norm_num

/-- C7 as amended: `isBeingCrawled(url)` is true iff the entry for the
normalized URL exists, its cache age does not exceed the TTL (the extra
condition the original claim denied), its crawl-state is crawling, and its
trigger time lies strictly within the 5-minute staleness window. -/
theorem C7_is_being_crawled_iff (norm : String → String) (st : PCStore)
    (now : ℚ) (u : String) :
    is_being_crawled norm st now u = true ↔
    ∃ c, st (norm u) = some c ∧
      now - c.cached_at ≤ PAGE_CONTEXT_CACHE_TTL ∧
      c.is_crawling = true ∧
      ∃ t, c.last_crawl_triggered = some t ∧
        now - t < CRAWL_STALENESS_WINDOW := by
  unfold is_being_crawled pcGet
  cases hst : st (norm u) with
  | none => simp
  | some c =>
    dsimp only
    by_cases httl : PAGE_CONTEXT_CACHE_TTL < now - c.cached_at
    · rw [if_pos httl]
      constructor
      · intro h0; exact absurd h0 (by simp)
      · rintro ⟨c', hc', hle', _⟩
        have hcc : c = c' := by simpa using hc'
        subst hcc
        exact absurd httl (not_lt.mpr hle')
    · rw [if_neg httl]
      cases hlt : c.last_crawl_triggered with
      | none => simp [hlt, not_lt.mp httl]
      | some t =>
        have hle : now - c.cached_at ≤ PAGE_CONTEXT_CACHE_TTL := not_lt.mp httl
        simp [hlt, hle]
        intro _ _
        linarith

/-- Outcome of one `get_run_status` poll as observed by `crawl_url_sync`
(`apify_pages.py` lines 262-266): the call may hit an unexpected error
(`raised`), return no status payload (outer `none`), or return a payload
whose `status` key is the inner option. -/
inductive PollStep where
  | raised : PollStep
  | statusOf : Option (Option String) → PollStep

/-- Environment of one `crawl_url_sync` run: the external-world responses.
The `Except Unit` layers model the unexpected errors the claim quantifies
over (the surrounding `try` at `apify_pages.py` lines 244-298 catches them);
the sub-calls also catch their own network errors internally, which is the
`ok none` outcome. `maxIters` is the iteration count of the poll loop
(`APIFY_TIMEOUT_SECS / wait_interval = 300 / 5 = 60` with the default
configuration). -/
structure CrawlEnv where
  enabled : Bool
  triggerRes : Except Unit (Option String)
  polls : Nat → PollStep
  fetchRes : Except Unit (Option (List EnrichedPageContext))
  procOk : Bool
  maxIters : Nat

/-- The context stored by `process_and_store_results`
(`apify_pages.py` lines 188-200) carries the crawled URL. -/
def buildCtx (u : String) (seed : EnrichedPageContext) : EnrichedPageContext :=
  { url := u, title := seed.title, main_content := seed.main_content,
    topics := seed.topics, text_embedding := seed.text_embedding,
    crawled_at := seed.crawled_at }

/-- Store after `process_and_store_results` (`apify_pages.py` lines 159-225):
the enriched context is stored when the internal processing succeeded
(`procOk`), otherwise the internal `except` swallows the failure and the
store is unchanged. -/
def procStore (env : CrawlEnv) (norm : String → String) (now : ℚ) (st : PCStore)
    (u : String) (seed : EnrichedPageContext) : PCStore :=
  if env.procOk then store_enriched_context norm st now (buildCtx u seed) else st

/-- The polling loop of `crawl_url_sync` (`apify_pages.py` lines 258-293),
one fuel unit per 5-second wait. An `error st` outcome is an uncaught
exception carrying the store state at the raise point; `ok` outcomes carry
the result and final store of the `try` body, including the post-loop
`set_crawling_status(url, False)` of the timeout and break paths. -/
def pollLoop (env : CrawlEnv) (norm : String → String) (now : ℚ) (u : String) :
    Nat → Nat → PCStore → Except PCStore (Option EnrichedPageContext × PCStore)
  | _, 0, st => .ok (none, set_crawling_status norm st now u false)
  | i, fuel + 1, st =>
    match env.polls i with
    | .raised => .error st
    | .statusOf none => pollLoop env norm now u (i + 1) fuel st
    | .statusOf (some none) => pollLoop env norm now u (i + 1) fuel st
    | .statusOf (some (some s)) =>
      if s = "SUCCEEDED" then
        match env.fetchRes with
        | .error _ => .error st
        | .ok none => .ok (none, set_crawling_status norm st now u false)
        | .ok (some []) => .ok (none, set_crawling_status norm st now u false)
        | .ok (some (seed :: _)) =>
          match pcGet norm (procStore env norm now st u seed) now u with
          | some c =>
            match c.enriched_context with
            | some ec => .ok (some ec, procStore env norm now st u seed)
            | none =>
              .ok (none, set_crawling_status norm (procStore env norm now st u seed) now u false)
          | none =>
            .ok (none, set_crawling_status norm (procStore env norm now st u seed) now u false)
      else if s = "FAILED" ∨ s = "ABORTED" ∨ s = "TIMED-OUT" then
        .ok (none, set_crawling_status norm st now u false)
      else pollLoop env norm now u (i + 1) fuel st

/-- The `try` body of `crawl_url_sync` (`apify_pages.py` lines 244-293),
entered with the crawling flag already set. -/
def crawlTryBody (env : CrawlEnv) (norm : String → String) (now : ℚ)
    (u : String) (st1 : PCStore) :
    Except PCStore (Option EnrichedPageContext × PCStore) :=
  match env.triggerRes with
  | .error _ => .error st1
  | .ok none => .ok (none, set_crawling_status norm st1 now u false)
  | .ok (some _) => pollLoop env norm now u 0 env.maxIters st1

/-- Orchestrating operation `ApifyPageCrawler.crawl_url_sync`
(`apify_pages.py` lines 227-298): when disabled return absent without
touching the store; otherwise mark crawling, run the try body, and on any
uncaught exception clear the crawling flag and return absent. Wall-clock
time is held fixed at `now` during the call; no modelled outcome depends on
the elapsed poll time. -/
def crawl_url_sync (env : CrawlEnv) (norm : String → String) (now : ℚ)
    (st : PCStore) (u : String) : Option EnrichedPageContext × PCStore :=
  if env.enabled = false then (none, st)
  else
    match crawlTryBody env norm now u (set_crawling_status norm st now u true) with
    | .error stE => (none, set_crawling_status norm stE now u false)
    | .ok r => r

/-- Clearing the crawling flag always leaves an entry for the normalized URL
whose crawling flag is false. -/
theorem set_crawling_false_flag (norm : String → String) (st : PCStore)
    (now : ℚ) (u : String) :
    ∃ c, (set_crawling_status norm st now u false) (norm u) = some c ∧
      c.is_crawling = false := by
  cases hst : st (norm u) with
  | none =>
    refine ⟨{ url := norm u, enriched_context := none, is_crawling := false,
              last_crawl_triggered := none, cached_at := now }, ?_, rfl⟩
    simp [set_crawling_status, hst]
  | some c =>
    refine ⟨{ url := c.url, enriched_context := c.enriched_context,
              is_crawling := false, last_crawl_triggered := c.last_crawl_triggered,
              cached_at := c.cached_at }, ?_, rfl⟩
    simp [set_crawling_status, hst]

/-- Every `ok`-with-absent exit of the polling loop has just cleared the
crawling flag. -/
theorem pollLoop_none_flag (env : CrawlEnv) (norm : String → String) (now : ℚ)
    (u : String) :
    ∀ (fuel i : Nat) (st : PCStore) (st2 : PCStore),
      pollLoop env norm now u i fuel st = .ok (none, st2) →
      ∃ c, st2 (norm u) = some c ∧ c.is_crawling = false := by
  intro fuel
  induction fuel with
  | zero =>
    intro i st st2 h
    unfold pollLoop at h
    cases h
    exact set_crawling_false_flag norm st now u
  | succ n ih =>
    intro i st st2 h
    cases hp : env.polls i with
    | raised =>
      have heq : pollLoop env norm now u i (n + 1) st = .error st := by
        unfold pollLoop; rw [hp]
      rw [heq] at h
      exact absurd h (by simp)
    | statusOf s0 =>
      match s0 with
      | none =>
        have heq : pollLoop env norm now u i (n + 1) st =
            pollLoop env norm now u (i + 1) n st := by
          conv_lhs => unfold pollLoop
          rw [hp]
        rw [heq] at h
        exact ih (i + 1) st st2 h
      | some none =>
        have heq : pollLoop env norm now u i (n + 1) st =
            pollLoop env norm now u (i + 1) n st := by
          conv_lhs => unfold pollLoop
          rw [hp]
        rw [heq] at h
        exact ih (i + 1) st st2 h
      | some (some s) =>
        have heq : pollLoop env norm now u i (n + 1) st =
            (if s = "SUCCEEDED" then
              match env.fetchRes with
              | .error _ => .error st
              | .ok none => .ok (none, set_crawling_status norm st now u false)
              | .ok (some []) => .ok (none, set_crawling_status norm st now u false)
              | .ok (some (seed :: _)) =>
                match pcGet norm (procStore env norm now st u seed) now u with
                | some c =>
                  match c.enriched_context with
                  | some ec => .ok (some ec, procStore env norm now st u seed)
                  | none =>
                    .ok (none, set_crawling_status norm (procStore env norm now st u seed) now u false)
                | none =>
                  .ok (none, set_crawling_status norm (procStore env norm now st u seed) now u false)
            else if s = "FAILED" ∨ s = "ABORTED" ∨ s = "TIMED-OUT" then
              .ok (none, set_crawling_status norm st now u false)
            else pollLoop env norm now u (i + 1) n st) := by
          conv_lhs => unfold pollLoop
          rw [hp]
        rw [heq] at h
        split at h
        · split at h
          · exact absurd h (by simp)
          · cases h
            exact set_crawling_false_flag norm st now u
          · cases h
            exact set_crawling_false_flag norm st now u
          next seed rest =>
            split at h
            next c hg =>
              split at h
              · exact absurd h (by simp)
              · cases h
                exact set_crawling_false_flag norm _ now u
            next hg =>
              cases h
              exact set_crawling_false_flag norm _ now u
        · split at h
          · cases h
            exact set_crawling_false_flag norm st now u
          · exact ih (i + 1) st st2 h

/-- Every `ok`-with-absent exit of the try body has just cleared the
crawling flag. -/
theorem crawlTryBody_none_flag (env : CrawlEnv) (norm : String → String)
    (now : ℚ) (u : String) (st1 st2 : PCStore)
    (h : crawlTryBody env norm now u st1 = .ok (none, st2)) :
    ∃ c, st2 (norm u) = some c ∧ c.is_crawling = false := by
  unfold crawlTryBody at h
  split at h
  · exact absurd h (by simp)
  · cases h
    exact set_crawling_false_flag norm st1 now u
  · exact pollLoop_none_flag env norm now u env.maxIters 0 st1 st2 h

/-- C8: whenever `crawl_url_sync` is enabled and returns absent — failed
trigger, terminal crawl failure, overall timeout, empty or unusable results,
or an unexpected error at any step — it does so without propagating an
exception (the embedding is total by construction, mirroring the catch-all
`except`) and the crawling flag for the URL is false in the final store. -/
theorem C8_crawl_failure_clears_flag (env : CrawlEnv) (norm : String → String)
    (now : ℚ) (st : PCStore) (u : String) (hen : env.enabled = true)
    (hres : (crawl_url_sync env norm now st u).1 = none) :
    ∃ c, (crawl_url_sync env norm now st u).2 (norm u) = some c ∧
      c.is_crawling = false := by
  unfold crawl_url_sync at hres ⊢
  rw [hen] at hres ⊢
  rw [if_neg (by simp : ¬(true = false))] at hres ⊢
  cases hb : crawlTryBody env norm now u (set_crawling_status norm st now u true) with
  | error stE =>
    exact set_crawling_false_flag norm stE now u
  | ok r =>
    obtain ⟨resv, st2⟩ := r
    cases resv with
    | none => exact crawlTryBody_none_flag env norm now u _ st2 hb
    | some ec =>
      rw [hb] at hres
      exact Option.noConfusion hres

/-- Witness for C8: enabled environment whose trigger call fails; the run
returns absent and the crawling flag ends false. -/
theorem C8_crawl_failure_clears_flag_witness :
    ∃ c, (crawl_url_sync
      { enabled := true, triggerRes := .ok none, polls := fun _ => .statusOf none,
        fetchRes := .ok none, procOk := false, maxIters := 0 }
      (fun s => s) 0 (fun _ => none) "https://example.com/a").2
        ((fun s => s) "https://example.com/a") = some c ∧
      c.is_crawling = false :=
  C8_crawl_failure_clears_flag
    { enabled := true, triggerRes := .ok none, polls := fun _ => .statusOf none,
      fetchRes := .ok none, procOk := false, maxIters := 0 }
    (fun s => s) 0 (fun _ => none) "https://example.com/a" rfl rfl

/-- Every category produced by the topic map is one of the three named
categories. -/
theorem topicCategoryMap_range {t c : String} (h : topicCategoryMap t = some c) :
    c = "lifestyle" ∨ c = "outdoor" ∨ c = "technology" := by
  unfold topicCategoryMap at h
  split at h
  · exact Or.inl (by cases h; rfl)
  split at h
  · exact Or.inl (by cases h; rfl)
  split at h
  · exact Or.inr (Or.inl (by cases h; rfl))
  split at h
  · exact Or.inr (Or.inr (by cases h; rfl))
  split at h
  · exact Or.inr (Or.inr (by cases h; rfl))
  · exact absurd h (by simp)

/-- Every member of the mapped page-category list is one of the three named
categories. -/
theorem pageCategoriesOf_range {topics : List String} {c : String}
    (h : c ∈ pageCategoriesOf topics) :
    c = "lifestyle" ∨ c = "outdoor" ∨ c = "technology" := by
  unfold pageCategoriesOf at h
  have main : ∀ (l : List String) (acc : List String),
      (∀ x ∈ acc, x = "lifestyle" ∨ x = "outdoor" ∨ x = "technology") →
      ∀ x ∈ l.foldl (fun acc t =>
        match topicCategoryMap t with
        | some c => if acc.contains c then acc else acc ++ [c]
        | none => acc) acc,
      x = "lifestyle" ∨ x = "outdoor" ∨ x = "technology" := by
    intro l
    induction l with
    | nil => intro acc hacc x hx; exact hacc x hx
    | cons t ts ih =>
      intro acc hacc x hx
      rw [List.foldl_cons] at hx
      refine ih _ ?_ x hx
      cases hm : topicCategoryMap t with
      | none =>
        intro y hy
        dsimp only at hy
        exact hacc y hy
      | some c0 =>
        intro y hy
        dsimp only at hy
        split at hy
        · exact hacc y hy
        · rcases List.mem_append.mp hy with h1 | h1
          · exact hacc y h1
          · exact (List.mem_singleton.mp h1) ▸ topicCategoryMap_range hm
  exact main topics [] (by intro x hx; exact absurd hx (List.not_mem_nil x)) c h

/-- The preferred category of the scoring phase, when present, is one of the
three named categories — never `other`. -/
theorem preferredCategory_range {topics : List String} {c : String}
    (h : preferredCategory topics = some c) :
    c = "lifestyle" ∨ c = "outdoor" ∨ c = "technology" := by
  unfold preferredCategory at h
  split at h
  · exact pageCategoriesOf_range (List.mem_of_mem_head? h)
  · cases topics with
    | nil => exact absurd h (by simp)
    | cons t ts => exact topicCategoryMap_range h

/-- C3 as amended: in every result of the matcher core, the returned score is
exactly the raw similarity adjusted by `adjustScore` relative to the
scoring-phase preferred category — which exists (and hence boosts/penalizes)
whenever the topics map to exactly one category OR the first topic has a
mapped category, so a multi-category page is boosted toward its first topic;
the 66 percent dominance rule plays no role in scoring. A product categorized
`other` never has its score changed. -/
theorem C3_boost_penalty_rule (pe : List ℝ) (products : List Product)
    (top_k : Nat) (min_score : ℝ) (page_topics : List String) :
    List.Forall (fun e =>
        e.score = adjustScore e.original_score e.category (preferredCategory page_topics))
      (find_best_products_core pe products top_k min_score page_topics) ∧
    ∀ s : ℝ, adjustScore s "other" (preferredCategory page_topics) = s := by
  constructor
  · rw [List.forall_iff_forall_mem]
    intro e he
    obtain ⟨p, _, hsome⟩ := mem_scoreProducts (mem_core he)
    exact (scoreOne_fields hsome).2.1
  · intro s
    cases hpc : preferredCategory page_topics with
    | none => rfl
    | some c =>
      rcases preferredCategory_range hpc with hc | hc | hc <;>
        subst hc <;> simp [adjustScore]

/-- The products of the scored list form a sublist of the input catalog: the
scoring loop visits each product once. -/
theorem scoreProducts_sublist (pe : List ℝ) (ps : List Product) (m : ℝ)
    (topics : List String) :
    ((scoreProducts pe ps m topics).map (fun e => e.product)).Sublist ps := by
  induction ps with
  | nil => simp [scoreProducts]
  | cons p rest ih =>
    unfold scoreProducts at ih ⊢
    rw [List.filterMap_cons]
    cases hp : scoreOne pe topics m p with
    | none => exact ih.cons p
    | some e =>
      rw [List.map_cons, scoreOne_product hp]
      exact ih.cons₂ p

/-- Diversification never returns more than `top_k` entries. -/
theorem diversify_length_le (scores : List ScoreEntry) (topics : List String)
    (k : Nat) : (_diversify_by_topics scores topics k).length ≤ k := by
  unfold _diversify_by_topics
  split
  · exact List.length_take_le k scores
  split
  · exact List.length_take_le k _
  · exact List.length_take_le k _

/-- The used-id list of an extended result. -/
theorem usedIds_append (r : List ScoreEntry) (e : ScoreEntry) :
    usedIds (r ++ [e]) = usedIds r ++ [e.product.id] := by
  simp [usedIds]

/-- Appending an entry whose id is not yet used preserves distinctness of the
used ids. -/
theorem usedIds_nodup_append {r : List ScoreEntry} {e : ScoreEntry}
    (hr : (usedIds r).Nodup) (he : (usedIds r).contains e.product.id = false) :
    (usedIds (r ++ [e])).Nodup := by
  rw [usedIds_append]
  refine hr.append (List.nodup_singleton _) ?_
  intro x hx hx2
  rw [List.mem_singleton.mp hx2] at hx
  have hc : List.elem e.product.id (usedIds r) = true := List.elem_iff.mpr hx
  rw [show (usedIds r).contains e.product.id
    = List.elem e.product.id (usedIds r) from rfl, hc] at he
  exact Bool.noConfusion he

/-- Generic preservation of used-id distinctness by the selection folds. -/
theorem foldl_usedIds_nodup {β : Type} (g : List ScoreEntry → β → List ScoreEntry)
    (hg : ∀ r b, (usedIds r).Nodup → (usedIds (g r b)).Nodup) :
    ∀ (l : List β) (res : List ScoreEntry),
      (usedIds res).Nodup → (usedIds (List.foldl g res l)).Nodup := by
  intro l
  induction l with
  | nil => intro res h; exact h
  | cons b bs ih =>
    intro res h
    rw [List.foldl_cons]
    exact ih (g res b) (hg res b h)

/-- The priority pass preserves used-id distinctness. -/
theorem priorityStep_usedIds_nodup (scores : List ScoreEntry)
    (cats : List String) (k : Nat) (res : List ScoreEntry)
    (h : (usedIds res).Nodup) : (usedIds (priorityStep scores cats k res)).Nodup := by
  unfold priorityStep
  refine foldl_usedIds_nodup _ ?_ cats res h
  intro r c hr
  split
  · exact hr
  · split
    next e he =>
      have hpred := List.find?_some he
      rw [Bool.not_eq_true'] at hpred
      exact usedIds_nodup_append hr hpred
    next => exact hr

/-- The take-all-unused pass preserves used-id distinctness. -/
theorem takeAllUnused_usedIds_nodup (k : Nat) (res l : List ScoreEntry)
    (h : (usedIds res).Nodup) : (usedIds (takeAllUnused k res l)).Nodup := by
  unfold takeAllUnused
  refine foldl_usedIds_nodup _ ?_ l res h
  intro r e hr
  split
  · exact hr
  split
  · exact hr
  next hcon => exact usedIds_nodup_append hr (Bool.not_eq_true _ ▸ Bool.of_not_eq_true hcon)

/-- The other-categories fill preserves used-id distinctness. -/
theorem otherFillStep_usedIds_nodup (scores : List ScoreEntry)
    (cats : List String) (k : Nat) (res : List ScoreEntry)
    (h : (usedIds res).Nodup) : (usedIds (otherFillStep scores cats k res)).Nodup := by
  unfold otherFillStep
  split
  · refine foldl_usedIds_nodup _ ?_ cats res h
    intro r c hr
    split
    · exact hr
    · exact takeAllUnused_usedIds_nodup k r _ hr
  · exact h

/-- The global fill preserves used-id distinctness. -/
theorem globalFillStep_usedIds_nodup (scores : List ScoreEntry) (k : Nat)
    (res : List ScoreEntry) (h : (usedIds res).Nodup) :
    (usedIds (globalFillStep scores k res)).Nodup := by
  unfold globalFillStep
  split
  · exact takeAllUnused_usedIds_nodup k res scores h
  · exact h

/-- One loop round preserves used-id distinctness. -/
theorem roundBody_usedIds_nodup (scores : List ScoreEntry)
    (pc oc : List String) (k : Nat) (res : List ScoreEntry)
    (h : (usedIds res).Nodup) : (usedIds (roundBody scores pc oc k res)).Nodup := by
  unfold roundBody
  exact globalFillStep_usedIds_nodup _ _ _
    (otherFillStep_usedIds_nodup _ _ _ _ (priorityStep_usedIds_nodup _ _ _ _ h))

/-- The whole selection loop preserves used-id distinctness. -/
theorem diversifyLoop_usedIds_nodup (scores : List ScoreEntry)
    (pc oc : List String) (k : Nat) :
    ∀ (fuel : Nat) (res : List ScoreEntry), (usedIds res).Nodup →
      (usedIds (diversifyLoop scores pc oc k fuel res)).Nodup := by
  intro fuel
  induction fuel with
  | zero => intro res h; exact h
  | succ n ih =>
    intro res h
    unfold diversifyLoop
    split
    · exact ih _ (roundBody_usedIds_nodup scores pc oc k res h)
    · exact h

/-- Distinct used ids force pairwise-distinct products. -/
theorem nodup_products_of_usedIds {res : List ScoreEntry}
    (h : (usedIds res).Nodup) : (res.map (fun e => e.product)).Nodup := by
  have heq : usedIds res = (res.map (fun e => e.product)).map (fun p => p.id) := by
    simp [usedIds]
  rw [heq] at h
  exact h.of_map

/-- Diversification preserves pairwise distinctness of the returned
products. -/
theorem diversify_map_product_nodup (scores : List ScoreEntry)
    (topics : List String) (k : Nat)
    (h : (scores.map (fun e => e.product)).Nodup) :
    ((_diversify_by_topics scores topics k).map (fun e => e.product)).Nodup := by
  unfold _diversify_by_topics
  split
  · exact h.sublist ((List.take_sublist k scores).map _)
  split
  next pref hpref =>
    dsimp only
    have hperm :
        ((scores.filter (fun e => e.category == pref) ++
          scores.filter (fun e => !(e.category == pref))).map (fun e => e.product)).Perm
          (scores.map (fun e => e.product)) :=
      (List.filter_append_perm _ scores).map _
    have hpo : ((scores.filter (fun e => e.category == pref) ++
        scores.filter (fun e => !(e.category == pref))).map (fun e => e.product)).Nodup :=
      hperm.nodup_iff.mpr h
    refine hpo.sublist (List.Sublist.map _ ?_)
    split
    · exact (List.take_sublist _ _).trans
        ((List.take_sublist _ _).append (List.take_sublist _ _))
    · exact (List.take_sublist _ _).trans
        ((List.take_sublist _ _).trans (List.sublist_append_left _ _))
  · exact (nodup_products_of_usedIds
      (diversifyLoop_usedIds_nodup _ _ _ _ _ _ (by simp [usedIds]))).sublist
      ((List.take_sublist _ _).map _)

/-- C2 as amended: on every non-raising call, the matcher core returns at most
`top_k` entries, every returned product is active with a present non-empty
embedding and raw similarity at least `min_score`, and — provided the catalog
contains no duplicate products — no product appears twice. (The original
claim fails on two points: a zero-norm embedding scores 0 and is returned
whenever `min_score ≤ 0`, and a catalog with a duplicated product can be
returned with the duplicate in the non-diversified paths.) -/
theorem C2_result_shape (pe : List ℝ) (products : List Product) (top_k : Nat)
    (min_score : ℝ) (page_topics : List String) (hnd : products.Nodup) :
    (find_best_products_core pe products top_k min_score page_topics).length ≤ top_k ∧
    List.Forall (fun e => e.product.active = true ∧ embAbsent e.product = false ∧
        min_score ≤ e.original_score)
      (find_best_products_core pe products top_k min_score page_topics) ∧
    ((find_best_products_core pe products top_k min_score page_topics).map
      (fun e => e.product)).Nodup := by
  refine ⟨?_, ?_, ?_⟩
  · unfold find_best_products_core
    exact diversify_length_le _ _ _
  · rw [List.forall_iff_forall_mem]
    intro e he
    obtain ⟨p, _, hsome⟩ := mem_scoreProducts (mem_core he)
    exact ⟨scoreOne_active hsome, scoreOne_emb hsome, (scoreOne_fields hsome).2.2⟩
  · unfold find_best_products_core
    refine diversify_map_product_nodup _ _ _ ?_
    have hscore : ((scoreProducts pe products min_score page_topics).map
        (fun e => e.product)).Nodup :=
      hnd.sublist (scoreProducts_sublist pe products min_score page_topics)
    exact (((sortDesc_perm _).map _).nodup_iff).mpr hscore

/-- Witness for C2 as amended at a concrete catalog of one product. -/
theorem C2_result_shape_witness :
    (find_best_products_core [(1 : ℝ)]
      [{ id := "p1", name := "ceramic vase", description := "a decorative vase",
         active := true, product_embedding := some [(1 : ℝ)] }] 5 0 []).length ≤ 5 ∧
    List.Forall (fun e => e.product.active = true ∧ embAbsent e.product = false ∧
        (0 : ℝ) ≤ e.original_score)
      (find_best_products_core [(1 : ℝ)]
        [{ id := "p1", name := "ceramic vase", description := "a decorative vase",
           active := true, product_embedding := some [(1 : ℝ)] }] 5 0 []) ∧
    ((find_best_products_core [(1 : ℝ)]
      [{ id := "p1", name := "ceramic vase", description := "a decorative vase",
         active := true, product_embedding := some [(1 : ℝ)] }] 5 0 []).map
      (fun e => e.product)).Nodup :=
  C2_result_shape [(1 : ℝ)]
    [{ id := "p1", name := "ceramic vase", description := "a decorative vase",
       active := true, product_embedding := some [(1 : ℝ)] }] 5 0 []
    (List.nodup_singleton _)

/-- A nonzero vector against the zero vector has cosine similarity 0 (the
zero-norm guard fires). -/
theorem cosine_one_zero : cosine_similarity [(1 : ℝ)] [(0 : ℝ)] = 0 := by
  unfold cosine_similarity
  rw [if_neg (by simp), if_pos (Or.inr (by simp [norm2, sumSq]))]

/-- Counterexample to C2: a product whose embedding is present but zero-norm
is returned by the matcher (with score 0) when `min_score = 0` — the claim
that a zero-norm product never appears in the result is false. -/
theorem C2_counterexample :
    ((find_best_products_core [(1 : ℝ)]
      [{ id := "p0", name := "plain widget", description := "simple thing",
         active := true, product_embedding := some [(0 : ℝ)] }] 5 0 []).map
      (fun e => e.product)) =
      [{ id := "p0", name := "plain widget", description := "simple thing",
         active := true, product_embedding := some [(0 : ℝ)] }] ∧
    sumSq (Option.getD (some [(0 : ℝ)]) []) = 0 := by
  constructor
  · simp only [find_best_products_core, scoreProducts, List.filterMap_cons,
      List.filterMap_nil, scoreOne, embAbsent, Option.getD_some, cosine_one_zero]
    norm_num
    simp [sortDesc, insertDesc, _diversify_by_topics]
  · simp [sumSq]

/-- Norm of the unit page embedding used in the concrete examples. -/
theorem norm2_ex_page : norm2 [(1 : ℝ), 0] = 1 := by
  unfold norm2 sumSq
  norm_num

/-- Norm of the 3-4-5 product embedding used in the concrete examples. -/
theorem norm2_ex_43 : norm2 [(4 : ℝ), 3] = 5 := by
  unfold norm2 sumSq
  norm_num
  rw [show (25 : ℝ) = 5 ^ 2 by norm_num]
  exact Real.sqrt_sq (by norm_num)

/-- Norm of the 4-3-5 product embedding used in the concrete examples. -/
theorem norm2_ex_34 : norm2 [(3 : ℝ), 4] = 5 := by
  unfold norm2 sumSq
  norm_num
  rw [show (25 : ℝ) = 5 ^ 2 by norm_num]
  exact Real.sqrt_sq (by norm_num)

/-- Cosine of the page embedding against the 3-4-5 vector. -/
theorem cosine_ex_43 : cosine_similarity [(1 : ℝ), 0] [(4 : ℝ), 3] = 4 / 5 := by
  unfold cosine_similarity
  rw [if_neg (by simp), if_neg (by rw [norm2_ex_page, norm2_ex_43]; norm_num),
    norm2_ex_page, norm2_ex_43]
  unfold dotList
  norm_num

/-- Cosine of the page embedding against the 4-3-5 vector. -/
theorem cosine_ex_34 : cosine_similarity [(1 : ℝ), 0] [(3 : ℝ), 4] = 3 / 5 := by
  unfold cosine_similarity
  rw [if_neg (by simp), if_neg (by rw [norm2_ex_page, norm2_ex_34]; norm_num),
    norm2_ex_page, norm2_ex_34]
  unfold dotList
  norm_num

/-- Cosine of the page embedding against itself. -/
theorem cosine_ex_self : cosine_similarity [(1 : ℝ), 0] [(1 : ℝ), 0] = 1 := by
  unfold cosine_similarity
  rw [if_neg (by simp), if_neg (by rw [norm2_ex_page]; norm_num), norm2_ex_page]
  unfold dotList
  norm_num

/-- Cosine of the page embedding against the orthogonal unit vector. -/
theorem cosine_ex_orth : cosine_similarity [(1 : ℝ), 0] [(0 : ℝ), 1] = 0 := by
  unfold cosine_similarity
  rw [if_neg (by simp)]
  have hn : norm2 [(0 : ℝ), 1] = 1 := by
    unfold norm2 sumSq
    norm_num
  rw [if_neg (by rw [norm2_ex_page, hn]; norm_num), norm2_ex_page, hn]
  unfold dotList
  norm_num

/-- Concrete outdoor-category product used in counterexamples: its text
contains the outdoor keyword `trail` and no exclusion keyword of the
`outdoor` or `technology` topics. -/
def trailProduct : Product :=
  { id := "t1", name := "trail kit", description := "rugged kit",
    active := true, product_embedding := some [(4 : ℝ), 3] }

/-- The score entry the matcher builds for `trailProduct` on the
outdoor+technology page: raw cosine 4/5, boosted by 15 percent to 23/25. -/
noncomputable def trailEntry : ScoreEntry :=
  { product := trailProduct, score := 23 / 25, original_score := 4 / 5,
    category := "outdoor" }

/-- Counterexample to C3: on the two-category page
topics = ["outdoor", "technology"] — multi-category by the claim-s own
definition (two mapped categories, each holding 50 percent of the mapped
topics, below the 66 percent dominance threshold) — the matcher still boosts
the outdoor product by
15 percent: its returned score 23/25 differs from its raw similarity 4/5,
because the scoring phase uses the first topic-s category as preferred
whenever the topics do not map to a single category. -/
theorem C3_counterexample :
    find_best_products_core [(1 : ℝ), 0] [trailProduct] 5 0
        ["outdoor", "technology"] = [trailEntry] ∧
    (pageCategoriesOf ["outdoor", "technology"]).length = 2 ∧
    ((categoryCounts ["outdoor", "technology"] "outdoor" : ℚ) /
      (totalMappedTopics ["outdoor", "technology"] : ℚ) < 33 / 50) ∧
    ((categoryCounts ["outdoor", "technology"] "technology" : ℚ) /
      (totalMappedTopics ["outdoor", "technology"] : ℚ) < 33 / 50) ∧
    ((23 : ℝ) / 25 ≠ 4 / 5) := by
  have hcountO : categoryCounts ["outdoor", "technology"] "outdoor" = 1 := by decide
  have hcountT : categoryCounts ["outdoor", "technology"] "technology" = 1 := by decide
  have htot0 : totalMappedTopics ["outdoor", "technology"] = 2 := by decide
  refine ⟨?_, by decide,
    by rw [hcountO, htot0]; norm_num,
    by rw [hcountT, htot0]; norm_num,
    by norm_num⟩
  have hcat : categorizeProduct trailProduct = "outdoor" := by decide
  have hexc : isExcluded trailProduct ["outdoor", "technology"] = false := by decide
  have hpref : preferredCategory ["outdoor", "technology"] = some "outdoor" := by decide
  have hadj : adjustScore (4 / 5 : ℝ) "outdoor" (some "outdoor") = 23 / 25 := by
    unfold adjustScore
    dsimp only
    rw [if_pos rfl, min_eq_right (by norm_num)]
    norm_num
  have hone : scoreOne [(1 : ℝ), 0] ["outdoor", "technology"] 0 trailProduct =
      some trailEntry := by
    unfold scoreOne
    rw [if_neg (by simp [trailProduct]), if_neg (by simp [embAbsent, trailProduct]),
      if_neg (by rw [hexc]; simp),
      show trailProduct.product_embedding.getD [] = [(4 : ℝ), 3] from rfl,
      cosine_ex_43, if_pos (by norm_num), hcat, hpref, hadj]
    rfl
  have hsp : scoreProducts [(1 : ℝ), 0] [trailProduct] 0 ["outdoor", "technology"] =
      [trailEntry] := by
    unfold scoreProducts
    rw [List.filterMap_cons, hone, List.filterMap_nil]
  have hsort : sortDesc [trailEntry] = [trailEntry] := by
    unfold sortDesc
    simp [insertDesc]
  unfold find_best_products_core
  rw [hsp, hsort]
  have hdom : dominantCategoryOf ["outdoor", "technology"] = some ("outdoor", 1) := by
    decide
  have htot : totalMappedTopics ["outdoor", "technology"] = 2 := by decide
  have hdiv : divPreferred ["outdoor", "technology"] = none := by
    unfold divPreferred
    rw [htot, hdom, if_pos (by norm_num : (0 : ℕ) < 2)]
    dsimp only
    rw [if_neg (by push_cast; norm_num), if_neg (by decide)]
  unfold _diversify_by_topics
  rw [if_neg (by decide), hdiv]
  have hcatz : ∀ c, categorizedFor [trailEntry] c =
      if c = "outdoor" then [trailEntry] else [] := by
    intro c
    by_cases hc : c = "outdoor"
    · subst hc
      simp [categorizedFor, trailEntry, hcat]
    · rw [if_neg hc]
      simp [categorizedFor, trailEntry, hcat]
      intro h2
      exact absurd h2.symm hc
  simp only [hcatz]
  norm_num
  simp [diversifyLoop, roundBody, priorityStep, otherFillStep, globalFillStep,
    takeAllUnused, usedIds, hcatz, pageCategoriesOf, topicCategoryMap]

/-- Modelled from the spec: the selection procedure the claim describes for a
multi-category page — partition the surviving products by category, then
round-robin across the matched categories (in topic order) taking one
highest-scoring not-yet-chosen product per category per round, repeating
until topK is reached or all matched categories are exhausted (no round can
add a product); only then fill remaining slots with the globally
best-scoring remaining products in score order. Written to compare with the
source-derived `_diversify_by_topics`. -/
noncomputable def specRounds (scores : List ScoreEntry) (cats : List String)
    (k : Nat) : Nat → List ScoreEntry → List ScoreEntry
  | 0, res => res
  | f + 1, res =>
    if (priorityStep scores cats k res).length = res.length then res
    else if k ≤ (priorityStep scores cats k res).length then priorityStep scores cats k res
    else specRounds scores cats k f (priorityStep scores cats k res)

/-- Modelled from the spec: full claimed multi-category selection — repeated
round-robin, then global fill, truncated to topK. -/
noncomputable def diversifySpecRoundRobin (scores : List ScoreEntry)
    (topics : List String) (k : Nat) : List ScoreEntry :=
  (globalFillStep scores k (specRounds scores (pageCategoriesOf topics) k k [])).take k

/-- Outdoor product with a perfectly aligned embedding. -/
def rrOut1 : Product :=
  { id := "out1", name := "trail kit", description := "rugged kit",
    active := true, product_embedding := some [(1 : ℝ), 0] }

/-- Outdoor product with an orthogonal embedding (raw score 0). -/
def rrOut2 : Product :=
  { id := "out2", name := "wilderness pack", description := "large pack",
    active := true, product_embedding := some [(0 : ℝ), 1] }

/-- Technology product with raw score 4/5. -/
def rrTech1 : Product :=
  { id := "tech1", name := "gadget pro", description := "pro gadget",
    active := true, product_embedding := some [(4 : ℝ), 3] }

/-- Technology product with raw score 3/5. -/
def rrTech2 : Product :=
  { id := "tech2", name := "gadget mini", description := "mini gadget",
    active := true, product_embedding := some [(3 : ℝ), 4] }

/-- Entry for `rrOut1`: boosted min(1, 1*1.15) = 1. -/
noncomputable def rrOut1E : ScoreEntry :=
  { product := rrOut1, score := 1, original_score := 1, category := "outdoor" }

/-- Entry for `rrOut2`: boosted min(1, 0*1.15) = 0. -/
noncomputable def rrOut2E : ScoreEntry :=
  { product := rrOut2, score := 0, original_score := 0, category := "outdoor" }

/-- Entry for `rrTech1`: penalized (4/5)*0.7 = 14/25. -/
noncomputable def rrTech1E : ScoreEntry :=
  { product := rrTech1, score := 14 / 25, original_score := 4 / 5,
    category := "technology" }

/-- Entry for `rrTech2`: penalized (3/5)*0.7 = 21/50. -/
noncomputable def rrTech2E : ScoreEntry :=
  { product := rrTech2, score := 21 / 50, original_score := 3 / 5,
    category := "technology" }

/-- Scoring of `rrOut1` on the outdoor+technology page. -/
theorem scoreOne_rrOut1 :
    scoreOne [(1 : ℝ), 0] ["outdoor", "technology"] 0 rrOut1 = some rrOut1E := by
  unfold scoreOne
  rw [if_neg (by simp [rrOut1]), if_neg (by simp [embAbsent, rrOut1]),
    if_neg (by rw [show isExcluded rrOut1 ["outdoor", "technology"] = false from by decide]; simp),
    show rrOut1.product_embedding.getD [] = [(1 : ℝ), 0] from rfl,
    cosine_ex_self, if_pos (by norm_num),
    show categorizeProduct rrOut1 = "outdoor" from by decide,
    show preferredCategory ["outdoor", "technology"] = some "outdoor" from by decide]
  have hadj : adjustScore (1 : ℝ) "outdoor" (some "outdoor") = 1 := by
    unfold adjustScore
    dsimp only
    rw [if_pos rfl, min_eq_left (by norm_num)]
  rw [hadj]
  rfl

/-- Scoring of `rrOut2` on the outdoor+technology page. -/
theorem scoreOne_rrOut2 :
    scoreOne [(1 : ℝ), 0] ["outdoor", "technology"] 0 rrOut2 = some rrOut2E := by
  unfold scoreOne
  rw [if_neg (by simp [rrOut2]), if_neg (by simp [embAbsent, rrOut2]),
    if_neg (by rw [show isExcluded rrOut2 ["outdoor", "technology"] = false from by decide]; simp),
    show rrOut2.product_embedding.getD [] = [(0 : ℝ), 1] from rfl,
    cosine_ex_orth, if_pos (by norm_num),
    show categorizeProduct rrOut2 = "outdoor" from by decide,
    show preferredCategory ["outdoor", "technology"] = some "outdoor" from by decide]
  have hadj : adjustScore (0 : ℝ) "outdoor" (some "outdoor") = 0 := by
    unfold adjustScore
    dsimp only
    rw [if_pos rfl, min_eq_right (by norm_num)]
    norm_num
  rw [hadj]
  rfl

/-- Scoring of `rrTech1` on the outdoor+technology page. -/
theorem scoreOne_rrTech1 :
    scoreOne [(1 : ℝ), 0] ["outdoor", "technology"] 0 rrTech1 = some rrTech1E := by
  unfold scoreOne
  rw [if_neg (by simp [rrTech1]), if_neg (by simp [embAbsent, rrTech1]),
    if_neg (by rw [show isExcluded rrTech1 ["outdoor", "technology"] = false from by decide]; simp),
    show rrTech1.product_embedding.getD [] = [(4 : ℝ), 3] from rfl,
    cosine_ex_43, if_pos (by norm_num),
    show categorizeProduct rrTech1 = "technology" from by decide,
    show preferredCategory ["outdoor", "technology"] = some "outdoor" from by decide]
  have hadj : adjustScore ((4 : ℝ) / 5) "technology" (some "outdoor") = 14 / 25 := by
    unfold adjustScore
    dsimp only
    rw [if_neg (by decide), if_pos (by decide)]
    norm_num
  rw [hadj]
  rfl

/-- Scoring of `rrTech2` on the outdoor+technology page. -/
theorem scoreOne_rrTech2 :
    scoreOne [(1 : ℝ), 0] ["outdoor", "technology"] 0 rrTech2 = some rrTech2E := by
  unfold scoreOne
  rw [if_neg (by simp [rrTech2]), if_neg (by simp [embAbsent, rrTech2]),
    if_neg (by rw [show isExcluded rrTech2 ["outdoor", "technology"] = false from by decide]; simp),
    show rrTech2.product_embedding.getD [] = [(3 : ℝ), 4] from rfl,
    cosine_ex_34, if_pos (by norm_num),
    show categorizeProduct rrTech2 = "technology" from by decide,
    show preferredCategory ["outdoor", "technology"] = some "outdoor" from by decide]
  have hadj : adjustScore ((3 : ℝ) / 5) "technology" (some "outdoor") = 21 / 50 := by
    unfold adjustScore
    dsimp only
    rw [if_neg (by decide), if_pos (by decide)]
    norm_num
  rw [hadj]
  rfl

/-- The sorted surviving scores of the round-robin example, descending by
boosted score: 1, 14/25, 21/50, 0. -/
theorem sortDesc_rr :
    sortDesc [rrOut1E, rrOut2E, rrTech1E, rrTech2E] =
      [rrOut1E, rrTech1E, rrTech2E, rrOut2E] := by
  simp only [sortDesc, List.foldr_cons, List.foldr_nil, rrOut1E, rrOut2E,
    rrTech1E, rrTech2E, insertDesc]
  norm_num [insertDesc]

/-- Category buckets of the sorted example scores. -/
theorem categorizedFor_rr : ∀ c,
    categorizedFor [rrOut1E, rrTech1E, rrTech2E, rrOut2E] c =
      if c = "outdoor" then [rrOut1E, rrOut2E]
      else if c = "technology" then [rrTech1E, rrTech2E]
      else [] := by
  intro c
  by_cases h1 : c = "outdoor"
  · subst h1
    simp [categorizedFor, rrOut1E, rrOut2E, rrTech1E, rrTech2E,
      show categorizeProduct rrOut1 = "outdoor" from by decide,
      show categorizeProduct rrOut2 = "outdoor" from by decide,
      show categorizeProduct rrTech1 = "technology" from by decide,
      show categorizeProduct rrTech2 = "technology" from by decide]
  by_cases h2 : c = "technology"
  · subst h2
    simp [categorizedFor, rrOut1E, rrOut2E, rrTech1E, rrTech2E,
      show categorizeProduct rrOut1 = "outdoor" from by decide,
      show categorizeProduct rrOut2 = "outdoor" from by decide,
      show categorizeProduct rrTech1 = "technology" from by decide,
      show categorizeProduct rrTech2 = "technology" from by decide]
  · rw [if_neg h1, if_neg h2]
    simp [categorizedFor, rrOut1E, rrOut2E, rrTech1E, rrTech2E,
      show categorizeProduct rrOut1 = "outdoor" from by decide,
      show categorizeProduct rrOut2 = "outdoor" from by decide,
      show categorizeProduct rrTech1 = "technology" from by decide,
      show categorizeProduct rrTech2 = "technology" from by decide,
      Ne.symm h1, Ne.symm h2]

/-- Counterexample to C4: on the multi-category page
topics = ["outdoor", "technology"] with two outdoor and two technology
products and topK = 3, the code returns [out1, tech1, tech2] — after one
product per matched category, the third slot is filled by the globally
best-scoring remaining product (tech2, 21/50) inside the first loop round —
whereas the round-robin the claim describes would start a second round and
take the next outdoor product first, returning [out1, tech1, out2]. -/
theorem C4_counterexample :
    ((find_best_products_core [(1 : ℝ), 0] [rrOut1, rrOut2, rrTech1, rrTech2] 3 0
        ["outdoor", "technology"]).map (fun e => e.product.id)) =
      ["out1", "tech1", "tech2"] ∧
    ((diversifySpecRoundRobin
        (sortDesc (scoreProducts [(1 : ℝ), 0] [rrOut1, rrOut2, rrTech1, rrTech2] 0
          ["outdoor", "technology"]))
        ["outdoor", "technology"] 3).map (fun e => e.product.id)) =
      ["out1", "tech1", "out2"] ∧
    (["out1", "tech1", "tech2"] : List String) ≠ ["out1", "tech1", "out2"] := by
  have hsp : scoreProducts [(1 : ℝ), 0] [rrOut1, rrOut2, rrTech1, rrTech2] 0
      ["outdoor", "technology"] = [rrOut1E, rrOut2E, rrTech1E, rrTech2E] := by
    unfold scoreProducts
    rw [List.filterMap_cons, scoreOne_rrOut1, List.filterMap_cons, scoreOne_rrOut2,
      List.filterMap_cons, scoreOne_rrTech1, List.filterMap_cons, scoreOne_rrTech2,
      List.filterMap_nil]
  have hdom : dominantCategoryOf ["outdoor", "technology"] = some ("outdoor", 1) := by
    decide
  have htot : totalMappedTopics ["outdoor", "technology"] = 2 := by decide
  have hdiv : divPreferred ["outdoor", "technology"] = none := by
    unfold divPreferred
    rw [htot, hdom, if_pos (by norm_num : (0 : ℕ) < 2)]
    dsimp only
    rw [if_neg (by push_cast; norm_num), if_neg (by decide)]
  refine ⟨?_, ?_, by decide⟩
  · unfold find_best_products_core
    rw [hsp, sortDesc_rr]
    unfold _diversify_by_topics
    rw [if_neg (by decide), hdiv]
    simp only [categorizedFor_rr,
      show pageCategoriesOf ["outdoor", "technology"] = ["outdoor", "technology"]
        from by decide]
    norm_num
    simp [diversifyLoop, roundBody, priorityStep, otherFillStep, globalFillStep,
      takeAllUnused, usedIds, categorizedFor_rr,
      show pageCategoriesOf ["outdoor", "technology"] = ["outdoor", "technology"]
        from by decide,
      show rrOut1E.product.id = "out1" from rfl,
      show rrOut2E.product.id = "out2" from rfl,
      show rrTech1E.product.id = "tech1" from rfl,
      show rrTech2E.product.id = "tech2" from rfl]
  · rw [hsp, sortDesc_rr]
    unfold diversifySpecRoundRobin
    simp [specRounds, globalFillStep, priorityStep, takeAllUnused, usedIds,
      categorizedFor_rr,
      show pageCategoriesOf ["outdoor", "technology"] = ["outdoor", "technology"]
        from by decide,
      show rrOut1E.product.id = "out1" from rfl,
      show rrOut2E.product.id = "out2" from rfl,
      show rrTech1E.product.id = "tech1" from rfl,
      show rrTech2E.product.id = "tech2" from rfl]

/-- Once `top_k` entries are selected, the take-all-unused pass is the
identity. -/
theorem takeAllUnused_id_of_ge {k : Nat} {res : List ScoreEntry}
    (h : k ≤ res.length) (l : List ScoreEntry) : takeAllUnused k res l = res := by
  unfold takeAllUnused
  induction l with
  | nil => rfl
  | cons e es ih =>
    rw [List.foldl_cons, if_pos h]
    exact ih

/-- The take-all-unused pass only appends to its accumulator. -/
theorem takeAllUnused_append (k : Nat) (l : List ScoreEntry) :
    ∀ res, ∃ t, takeAllUnused k res l = res ++ t := by
  unfold takeAllUnused
  induction l with
  | nil => intro res; exact ⟨[], by simp⟩
  | cons e es ih =>
    intro res
    rw [List.foldl_cons]
    split
    · exact ih res
    split
    · exact ih res
    · obtain ⟨t, ht⟩ := ih (res ++ [e])
      exact ⟨[e] ++ t, by rw [ht, List.append_assoc]⟩

/-- The priority pass only appends to its accumulator. -/
theorem priorityStep_append (scores : List ScoreEntry) (cats : List String)
    (k : Nat) : ∀ res, ∃ t, priorityStep scores cats k res = res ++ t := by
  unfold priorityStep
  induction cats with
  | nil => intro res; exact ⟨[], by simp⟩
  | cons c cs ih =>
    intro res
    rw [List.foldl_cons]
    split
    · exact ih res
    · split
      next e2 he2 =>
        obtain ⟨t, ht⟩ := ih (res ++ [e2])
        exact ⟨[e2] ++ t, by rw [ht, List.append_assoc]⟩
      next => exact ih res

/-- After the take-all-unused pass, either `top_k` entries are selected or
every input entry has its id among the used ids. -/
theorem takeAllUnused_post (k : Nat) (l : List ScoreEntry) :
    ∀ res, k ≤ (takeAllUnused k res l).length ∨
      ∀ e ∈ l, e.product.id ∈ usedIds (takeAllUnused k res l) := by
  induction l with
  | nil =>
    intro res
    right
    intro e he
    exact absurd he (List.not_mem_nil e)
  | cons e es ih =>
    intro res
    have hstep : takeAllUnused k res (e :: es) =
        takeAllUnused k
          (if k ≤ res.length then res
           else if (usedIds res).contains e.product.id then res
           else res ++ [e]) es := by
      unfold takeAllUnused
      rw [List.foldl_cons]
    by_cases h1 : k ≤ res.length
    · left
      rw [hstep, if_pos h1, takeAllUnused_id_of_ge h1]
      exact h1
    · rw [hstep, if_neg h1]
      by_cases h2 : (usedIds res).contains e.product.id
      · rw [if_pos h2]
        rcases ih res with hl | hr
        · exact Or.inl hl
        · right
          intro x hx
          rcases List.mem_cons.mp hx with hx1 | hx1
          · subst hx1
            obtain ⟨t, ht⟩ := takeAllUnused_append k es res
            rw [ht]
            have : x.product.id ∈ usedIds res := by
              have := List.mem_of_elem_eq_true h2
              simpa [usedIds] using this
            simp only [usedIds, List.map_append, List.mem_append]
            exact Or.inl (by simpa [usedIds] using this)
          · exact hr x hx1
      · rw [if_neg h2]
        rcases ih (res ++ [e]) with hl | hr
        · exact Or.inl hl
        · right
          intro x hx
          rcases List.mem_cons.mp hx with hx1 | hx1
          · subst hx1
            obtain ⟨t, ht⟩ := takeAllUnused_append k es (res ++ [x])
            rw [ht]
            simp [usedIds]
          · exact hr x hx1

/-- After the global fill, either `top_k` entries are selected or every
surviving entry has its id among the used ids. -/
theorem globalFillStep_post (scores : List ScoreEntry) (k : Nat)
    (res : List ScoreEntry) :
    k ≤ (globalFillStep scores k res).length ∨
      ∀ e ∈ scores, e.product.id ∈ usedIds (globalFillStep scores k res) := by
  unfold globalFillStep
  split
  · exact takeAllUnused_post k scores res
  next h => exact Or.inl (Nat.le_of_not_lt h)

/-- When every surviving entry is already used, the take-all-unused pass is
the identity. -/
theorem takeAllUnused_id_of_used {scores : List ScoreEntry} {k : Nat}
    {res : List ScoreEntry} (hused : ∀ e ∈ scores, e.product.id ∈ usedIds res)
    {l : List ScoreEntry} (hl : ∀ e ∈ l, e ∈ scores) :
    takeAllUnused k res l = res := by
  unfold takeAllUnused
  induction l with
  | nil => rfl
  | cons e es ih =>
    rw [List.foldl_cons]
    have he : (usedIds res).contains e.product.id = true :=
      List.elem_iff.mpr (hused e (hl e (List.mem_cons_self e es)))
    by_cases hk : k ≤ res.length
    · rw [if_pos hk]
      exact ih fun x hx => hl x (List.mem_cons_of_mem e hx)
    · rw [if_neg hk, if_pos he]
      exact ih fun x hx => hl x (List.mem_cons_of_mem e hx)

/-- When every surviving entry is already used, the priority pass is the
identity. -/
theorem priorityStep_id_of_used {scores : List ScoreEntry} {k : Nat}
    {res : List ScoreEntry} (hused : ∀ e ∈ scores, e.product.id ∈ usedIds res)
    (cats : List String) : priorityStep scores cats k res = res := by
  unfold priorityStep
  induction cats with
  | nil => rfl
  | cons c cs ih =>
    rw [List.foldl_cons]
    have hnone : List.find? (fun e => !(usedIds res).contains e.product.id)
        (categorizedFor scores c) = none := by
      rw [List.find?_eq_none]
      intro x hx
      simp
      exact hused x (mem_categorizedFor hx)
    split
    · exact ih
    · rw [hnone]
      exact ih

/-- When every surviving entry is already used, the other-categories fill is
the identity. -/
theorem otherFillStep_id_of_used {scores : List ScoreEntry} {k : Nat}
    {res : List ScoreEntry} (hused : ∀ e ∈ scores, e.product.id ∈ usedIds res)
    (cats : List String) : otherFillStep scores cats k res = res := by
  unfold otherFillStep
  split
  · induction cats with
    | nil => rfl
    | cons c cs ih =>
      rw [List.foldl_cons]
      split
      · exact ih
      · rw [takeAllUnused_id_of_used hused (fun e he => mem_categorizedFor he)]
        exact ih
  · rfl

/-- When every surviving entry is already used, the global fill is the
identity. -/
theorem globalFillStep_id_of_used {scores : List ScoreEntry} {k : Nat}
    {res : List ScoreEntry} (hused : ∀ e ∈ scores, e.product.id ∈ usedIds res) :
    globalFillStep scores k res = res := by
  unfold globalFillStep
  split
  · exact takeAllUnused_id_of_used hused (fun e he => he)
  · rfl

/-- When every surviving entry is already used, a loop round is the
identity. -/
theorem roundBody_id_of_used {scores : List ScoreEntry} {pc oc : List String}
    {k : Nat} {res : List ScoreEntry}
    (hused : ∀ e ∈ scores, e.product.id ∈ usedIds res) :
    roundBody scores pc oc k res = res := by
  unfold roundBody
  rw [priorityStep_id_of_used hused, otherFillStep_id_of_used hused,
    globalFillStep_id_of_used hused]

/-- When `top_k` entries are selected, the loop stops immediately. -/
theorem diversifyLoop_id_of_ge {scores : List ScoreEntry} {pc oc : List String}
    {k : Nat} {res : List ScoreEntry} (h : k ≤ res.length) (fuel : Nat) :
    diversifyLoop scores pc oc k fuel res = res := by
  cases fuel with
  | zero => rfl
  | succ n =>
    unfold diversifyLoop
    rw [if_neg (Nat.not_lt.mpr h)]

/-- The loop is the identity on any state that is full or has used every
surviving entry. -/
theorem diversifyLoop_fix {scores : List ScoreEntry} {pc oc : List String}
    {k : Nat} {res : List ScoreEntry}
    (h : k ≤ res.length ∨ ∀ e ∈ scores, e.product.id ∈ usedIds res)
    (fuel : Nat) : diversifyLoop scores pc oc k fuel res = res := by
  induction fuel with
  | zero => rfl
  | succ n ih =>
    rcases h with h1 | h1
    · exact diversifyLoop_id_of_ge h1 (n + 1)
    · unfold diversifyLoop
      split
      · rw [roundBody_id_of_used h1]
        exact ih
      · rfl

/-- C4 as amended: for a multi-category page, diversification is a single
effective pass — one highest-scoring unchosen product per matched category,
then (still within the first round) all unchosen products of the non-matched
categories in the fixed order outdoor, technology, lifestyle, other, then the
globally best-scoring remaining entries in score order, truncated to `top_k`;
the loop rounds after the first never add anything, because the first-round
global fill already reaches `top_k` or exhausts the surviving entries. -/
theorem C4_single_effective_round (scores : List ScoreEntry)
    (page_topics : List String) (top_k : Nat) (hne : page_topics ≠ [])
    (hmulti : divPreferred page_topics = none) :
    _diversify_by_topics scores page_topics top_k =
      (roundBody scores
        ((pageCategoriesOf page_topics).filter
          (fun c => !(categorizedFor scores c).isEmpty))
        (["outdoor", "technology", "lifestyle", "other"].filter
          (fun c => !((pageCategoriesOf page_topics).contains c) &&
            !(categorizedFor scores c).isEmpty))
        top_k []).take top_k := by
  have hie : page_topics.isEmpty = false := by
    cases page_topics with
    | nil => exact absurd rfl hne
    | cons t ts => rfl
  unfold _diversify_by_topics
  rw [hie, hmulti]
  simp only [Bool.false_eq_true, if_false]
  cases top_k with
  | zero => simp
  | succ m =>
    congr 1
    unfold diversifyLoop
    rw [if_pos (by simp)]
    exact diversifyLoop_fix
      (Or.elim (globalFillStep_post scores (m + 1)
          (otherFillStep scores _ (m + 1) (priorityStep scores _ (m + 1) [])))
        Or.inl Or.inr) m

/-- Witness for C4 as amended, at the concrete multi-category page
topics = ["outdoor", "technology"] with an empty score list and topK = 1. -/
theorem C4_single_effective_round_witness :
    _diversify_by_topics [] ["outdoor", "technology"] 1 =
      (roundBody []
        ((pageCategoriesOf ["outdoor", "technology"]).filter
          (fun c => !(categorizedFor [] c).isEmpty))
        (["outdoor", "technology", "lifestyle", "other"].filter
          (fun c => !((pageCategoriesOf ["outdoor", "technology"]).contains c) &&
            !(categorizedFor [] c).isEmpty))
        1 []).take 1 :=
  C4_single_effective_round [] ["outdoor", "technology"] 1 (by simp)
    (by
      unfold divPreferred
      rw [show totalMappedTopics ["outdoor", "technology"] = 2 from by decide,
        show dominantCategoryOf ["outdoor", "technology"] = some ("outdoor", 1)
          from by decide,
        if_pos (by norm_num : (0 : ℕ) < 2)]
      dsimp only
      rw [if_neg (by push_cast; norm_num), if_neg (by decide)])
